import Mathlib

/-!
Shallow embedding of `src/item/itemwidget.cpp` (CopyQ item plugin framework:
`ItemWidget`, its editor data binding, the mouse interaction gate, and the
image-pasting `TextEdit`).  Toolkit (Qt) objects are modelled by explicit
state records; toolkit side effects (copying to clipboard, opening a URL,
model writes) are recorded as explicit traces in the results so that the
theorems can count them.
-/

namespace CopyQ

/-- Model of `QPoint`: a mouse position inside the widget. -/
structure QPoint where
  x : Int
  y : Int
deriving DecidableEq, Repr

/-- Qt mouse buttons (`Qt::MouseButton`); only `left` is distinguished by the code. -/
inductive MouseButton
  | left
  | right
  | middle
  | extra
deriving DecidableEq, Repr

/-- Bit value of `Qt::ShiftModifier` in the `Qt::KeyboardModifiers` bitmask. -/
def shiftModifierBit : Nat := 0x02000000

/-- Model of `QMouseEvent`: keyboard modifier bitmask, pressed button and position. -/
structure QMouseEvent where
  modifiers : Nat
  button : MouseButton
  pos : QPoint
deriving DecidableEq, Repr

/-- `canMouseInteract` (itemwidget.cpp:42-45): the event's modifier bitmask
has the Shift bit set. -/
def canMouseInteract (event : QMouseEvent) : Bool :=
  event.modifiers &&& shiftModifierBit != 0

/-- Model of `QTextDocument`: plain-text content, its HTML serialization,
the number of distinct formats (`allFormats().size()`), and the modified flag. -/
structure QTextDocument where
  plainText : String
  html : String
  formatCount : Nat
  modified : Bool
deriving DecidableEq, Repr

/-- `containsRichText` (itemwidget.cpp:47-50): more than 3 distinct formats. -/
def containsRichText (document : QTextDocument) : Bool :=
  document.formatCount > 3

/-- Mouse cursor shapes used by the gate: `QCursor()` defaults to `arrow`;
the other two are `Qt::IBeamCursor` and `Qt::PointingHandCursor`. -/
inductive CursorShape
  | arrow
  | ibeam
  | pointingHand
deriving DecidableEq, Repr

/-- Model of `Qt::TextInteractionFlags`: the two bits the gate manipulates
are explicit; all remaining bits are kept in `otherBits` and never touched. -/
structure TextInteractionFlags where
  textSelectableByMouse : Bool
  linksAccessibleByMouse : Bool
  otherBits : Nat
deriving DecidableEq, Repr

/-- Model of a `QTextEdit`: its document, the text cursor (caret position and
whether it carries a selection), mouse tracking, the viewport cursor shape,
and the text interaction flags. -/
structure QTextEditState where
  document : QTextDocument
  textCursorPos : Nat
  hasSelection : Bool
  mouseTracking : Bool
  viewportCursor : CursorShape
  interactionFlags : TextInteractionFlags
deriving DecidableEq, Repr

/-- Events relevant to `ItemWidget::filterMouseEvents`; `other` stands for
every event type outside the switch (falls to `default:`). -/
inductive QEvent
  | enter
  | mouseButtonPress (e : QMouseEvent)
  | mouseButtonDblClick (e : QMouseEvent)
  | mouseMove (e : QMouseEvent)
  | mouseButtonRelease (e : QMouseEvent)
  | other
deriving DecidableEq, Repr

/-- Result of one `filterMouseEvents` call: the mutated edit surface, the
boolean return value ("event handled"), the number of `QTextEdit::copy()`
calls made, and the list of URLs passed to `QDesktopServices::openUrl`. -/
structure MouseFilterResult where
  edit : QTextEditState
  handled : Bool
  copyCount : Nat
  openedUrls : List String
deriving DecidableEq, Repr

/-- Lines 241-249 of itemwidget.cpp: set or clear both
`Qt::TextSelectableByMouse` and `Qt::LinksAccessibleByMouse` on the edit
surface according to `allowMouseInteraction`. -/
def applyInteractionFlags (edit : QTextEditState) (allow : Bool) : QTextEditState :=
  let f := edit.interactionFlags
  let f := if allow then
      { f with textSelectableByMouse := true, linksAccessibleByMouse := true }
    else
      { f with textSelectableByMouse := false, linksAccessibleByMouse := false }
  { edit with interactionFlags := f }

/-- Lines 251-268 of itemwidget.cpp, reached only for `MouseButtonPress` and
`MouseMove` (`isPress` distinguishes them): choose the viewport cursor from
the anchor under the position and, on a press over a non-empty anchor, open
the URL and report the event handled. -/
def pressMovePhase (anchorAt : QPoint → String) (edit : QTextEditState)
    (allow : Bool) (e : QMouseEvent) (isPress : Bool) : MouseFilterResult :=
  if allow then
    let anchor := anchorAt e.pos
    if anchor.isEmpty then
      { edit := { edit with viewportCursor := .ibeam },
        handled := false, copyCount := 0, openedUrls := [] }
    else
      if isPress then
        { edit := { edit with viewportCursor := .pointingHand },
          handled := true, copyCount := 0, openedUrls := [anchor] }
      else
        { edit := { edit with viewportCursor := .pointingHand },
          handled := false, copyCount := 0, openedUrls := [] }
  else
    { edit := { edit with viewportCursor := .arrow },
      handled := false, copyCount := 0, openedUrls := [] }

/-- Model of `edit->setTextCursor(edit->cursorForPosition(e->pos()))`: the
cursor returned by `cursorForPosition` sits at the position's document
offset and carries no selection. -/
def setTextCursorAt (cursorForPosition : QPoint → Nat) (edit : QTextEditState)
    (p : QPoint) : QTextEditState :=
  { edit with textCursorPos := cursorForPosition p, hasSelection := false }

/-- `ItemWidget::filterMouseEvents` (itemwidget.cpp:193-271).  The
layout-dependent queries `anchorAt` and `cursorForPosition` are passed as
functions of the position. -/
def filterMouseEvents (anchorAt : QPoint → String) (cursorForPosition : QPoint → Nat)
    (edit : QTextEditState) (event : QEvent) : MouseFilterResult :=
  match event with
  | .enter =>
      { edit := { edit with mouseTracking := true, viewportCursor := .arrow },
        handled := false, copyCount := 0, openedUrls := [] }
  | .mouseButtonPress e =>
      if !canMouseInteract e then
        pressMovePhase anchorAt (applyInteractionFlags edit false) false e true
      else if e.button = MouseButton.left then
        pressMovePhase anchorAt
          (applyInteractionFlags (setTextCursorAt cursorForPosition edit e.pos) true) true e true
      else
        pressMovePhase anchorAt (applyInteractionFlags edit true) true e true
  | .mouseButtonDblClick e =>
      if !canMouseInteract e then
        { edit := applyInteractionFlags edit false,
          handled := false, copyCount := 0, openedUrls := [] }
      else if e.button = MouseButton.left then
        { edit := applyInteractionFlags (setTextCursorAt cursorForPosition edit e.pos) true,
          handled := false, copyCount := 0, openedUrls := [] }
      else
        { edit := applyInteractionFlags edit true,
          handled := false, copyCount := 0, openedUrls := [] }
  | .mouseMove e =>
      pressMovePhase anchorAt (applyInteractionFlags edit (canMouseInteract e))
        (canMouseInteract e) e false
  | .mouseButtonRelease e =>
      let copies := if canMouseInteract e && edit.hasSelection then 1 else 0
      { edit := applyInteractionFlags edit false,
        handled := false, copyCount := copies, openedUrls := [] }
  | .other =>
      { edit := edit, handled := false, copyCount := 0, openedUrls := [] }

/-- Widget pointer handed to `setEditorData` / `setModelData` / `hasChanges`:
either a null pointer, a widget that is (a subclass of) `QTextEdit`, or some
other widget for which the `qobject_cast` fails. -/
inductive WidgetPtr
  | null
  | textEdit (edit : QTextEditState)
  | otherWidget (id : Nat)
deriving DecidableEq, Repr

/-- Model of `qobject_cast<QTextEdit *>(editor)`: succeeds exactly on a
`QTextEdit`; a null pointer or any other widget type yields `none`. -/
def qobjectCastTextEdit : WidgetPtr → Option QTextEditState
  | .textEdit edit => some edit
  | _ => none

/-- Data held by the model index, as queried by `setEditorData`:
`index.data(contentType::hasHtml)`, `index.data(contentType::html)` and
`index.data(Qt::EditRole)`. -/
structure ModelIndexData where
  hasHtml : Bool
  html : String
  editText : String
deriving DecidableEq, Repr

/-- Number of formats in a freshly set plain-text `QTextDocument` (the
toolkit's default frame, block and character formats): not more than the
rich-text threshold of `containsRichText`. -/
def plainDocumentFormatCount : Nat := 3

/-- Stand-in for the toolkit's HTML serialization of a plain-text document;
its value is never compared by the code under verification, because a
plain-text document never passes `containsRichText`. -/
def plainTextHtml (text : String) : String := text

/-- Model of `QTextEdit::setPlainText`: the document becomes a fresh
plain-text document holding `text`, with only the toolkit's default formats
and a cleared modified flag. -/
def setPlainText (edit : QTextEditState) (text : String) : QTextEditState :=
  { edit with document :=
      { plainText := text
        html := plainTextHtml text
        formatCount := plainDocumentFormatCount
        modified := false } }

/-- Model of `QTextEdit::setHtml`: the document is rebuilt by the toolkit's
HTML parser, passed in as the function `parseHtml`. -/
def setHtml (parseHtml : String → QTextDocument) (edit : QTextEditState)
    (html : String) : QTextEditState :=
  { edit with document := parseHtml html }

/-- Model of `QTextEdit::selectAll`: the text cursor selects the whole
document, so it carries a selection exactly when the document is non-empty. -/
def selectAll (edit : QTextEditState) : QTextEditState :=
  { edit with hasSelection := !edit.document.plainText.isEmpty }

/-- `ItemWidget::setEditorData` (itemwidget.cpp:129-142): on a `QTextEdit`,
load HTML when the index carries the `hasHtml` flag, plain text otherwise,
then select all; on any other widget, do nothing. -/
def setEditorData (parseHtml : String → QTextDocument) (editor : WidgetPtr)
    (index : ModelIndexData) : WidgetPtr :=
  match qobjectCastTextEdit editor with
  | some textEdit =>
      let textEdit :=
        if index.hasHtml then setHtml parseHtml textEdit index.html
        else setPlainText textEdit index.editText
      .textEdit (selectAll textEdit)
  | none => editor

/-- One write into the item model: either `model->setData(index, value)` with
a plain string (used to clear the cell) or
`model->setData(index, map, contentType::updateData)` with a content-type →
bytes mapping (association list in insertion order). -/
inductive ModelWrite
  | setText (value : String)
  | updateData (map : List (String × String))
deriving DecidableEq, Repr

/-- Result of `setModelData`: the ordered trace of model writes and the
editor as left behind by the call. -/
structure SetModelDataResult where
  writes : List ModelWrite
  editor : WidgetPtr
deriving DecidableEq, Repr

/-- `QTextEdit::toPlainText` on the model: the document's plain text
(`toUtf8` is the identity on our byte-string model). -/
def toPlainText (edit : QTextEditState) : String := edit.document.plainText

/-- `QTextEdit::toHtml` on the model: the document's HTML serialization. -/
def toHtml (edit : QTextEditState) : String := edit.document.html

/-- `ItemWidget::setModelData` (itemwidget.cpp:144-160): on a `QTextEdit`,
clear the cell, then write `text/plain` always and `text/html` exactly when
the document `containsRichText`, and clear the document's modified flag; on
any other widget, do nothing. -/
def setModelData (editor : WidgetPtr) : SetModelDataResult :=
  match qobjectCastTextEdit editor with
  | some textEdit =>
      let data : List (String × String) := [("text/plain", toPlainText textEdit)]
      let data :=
        if containsRichText textEdit.document then data ++ [("text/html", toHtml textEdit)]
        else data
      { writes := [.setText "", .updateData data]
        editor := .textEdit
          { textEdit with document := { textEdit.document with modified := false } } }
  | none => { writes := [], editor := editor }

/-- `ItemWidget::hasChanges` (itemwidget.cpp:162-166): true exactly when the
editor casts to a `QTextEdit` whose document's modified flag is set (the
document of a live `QTextEdit` is never null). -/
def hasChanges (editor : WidgetPtr) : Bool :=
  match qobjectCastTextEdit editor with
  | some textEdit => textEdit.document.modified
  | none => false

/-- A fresh `QTextDocument` of a newly constructed `QTextEdit`: empty, only
default formats, not modified. -/
def emptyDocument : QTextDocument :=
  { plainText := ""
    html := plainTextHtml ""
    formatCount := plainDocumentFormatCount
    modified := false }

/-- `ItemWidget::createEditor` (itemwidget.cpp:122-127): a fresh frameless
`TextEdit` over an empty document (default `QTextEdit` interaction flags). -/
def createEditor : WidgetPtr :=
  .textEdit
    { document := emptyDocument
      textCursorPos := 0
      hasSelection := false
      mouseTracking := false
      viewportCursor := .arrow
      interactionFlags :=
        { textSelectableByMouse := true, linksAccessibleByMouse := false, otherBits := 0 } }

/-- Model of `QRegExp`: the pattern string together with the matching
options that `QRegExp::operator==` compares. -/
structure QRegExp where
  pattern : String
  caseSensitive : Bool
  minimal : Bool
deriving DecidableEq, Repr

/-- Opaque model of a `QFont` value; only its identity matters here. -/
structure QFont where
  fontId : Nat
deriving DecidableEq, Repr

/-- Opaque model of a `QPalette` value; only its identity matters here. -/
structure QPalette where
  paletteId : Nat
deriving DecidableEq, Repr

/-- One invocation of the virtual `highlight(re, font, palette)` re-render
effect, recorded with the arguments it received. -/
structure HighlightCall where
  re : QRegExp
  font : QFont
  palette : QPalette
deriving DecidableEq, Repr

/-- `ItemWidget::setHighlight` (itemwidget.cpp:113-120) acting on the stored
pattern `m_re`: when the new pattern equals the stored one, return
unchanged with no effect; otherwise store it and invoke `highlight` once.
The second component is the trace of `highlight` invocations. -/
def setHighlight (m_re : QRegExp) (re : QRegExp) (highlightFont : QFont)
    (highlightPalette : QPalette) : QRegExp × List HighlightCall :=
  if m_re = re then (m_re, [])
  else (re, [⟨re, highlightFont, highlightPalette⟩])

/-- Model of `QSize`. -/
structure QSize where
  width : Int
  height : Int
deriving DecidableEq, Repr

/-- Outcome of `updateSize` on the widget: either `resize(sizeHint())` or
`setFixedSize(w, h)`. -/
inductive SizeAction
  | resizeToSizeHint
  | setFixedSize (width height : Int)
deriving DecidableEq, Repr

/-- Result of `updateSize`: the new maximum size installed first, then the
resizing action taken. -/
structure UpdateSizeResult where
  newMaximumSize : QSize
  action : SizeAction
deriving DecidableEq, Repr

/-- `ItemWidget::updateSize` (itemwidget.cpp:173-185).  The widget's
layout-dependent `heightForWidth` query is passed as a function. -/
def updateSize (heightForWidth : Int → Int) (maximumSize : QSize)
    (idealWidth : Int) : UpdateSizeResult :=
  let idealHeight := heightForWidth idealWidth
  let maximumHeight := heightForWidth maximumSize.width
  if idealHeight ≤ 0 ∧ maximumHeight ≤ 0 then
    { newMaximumSize := maximumSize, action := .resizeToSizeHint }
  else if idealHeight ≠ maximumHeight then
    { newMaximumSize := maximumSize, action := .setFixedSize maximumSize.width maximumHeight }
  else
    { newMaximumSize := maximumSize, action := .setFixedSize idealWidth idealHeight }

/-- Model of `QMimeData`: the offered content types with their payloads, and
the `hasImage()` flag. -/
structure QMimeData where
  formats : List (String × String)
  hasImageFlag : Bool
deriving DecidableEq, Repr

/-- `QMimeData::hasFormat`. -/
def QMimeData.hasFormat (data : QMimeData) (format : String) : Bool :=
  data.formats.any (fun p => p.1 == format)

/-- `QMimeData::data`: the payload stored under the format (empty when the
format is absent). -/
def QMimeData.payload (data : QMimeData) (format : String) : String :=
  ((data.formats.find? (fun p => p.1 == format)).map (fun p => p.2)).getD ""

/-- The fixed priority vector of `findImageFormat` (itemwidget.cpp:54). -/
def imageFormats : List String :=
  ["image/svg+xml", "image/png", "image/bmp", "image/jpeg", "image/gif"]

/-- `findImageFormat` (itemwidget.cpp:52-61): the first format of the
priority vector that the payload offers, or the empty string. -/
def findImageFormat (data : QMimeData) : String :=
  match imageFormats.find? (fun format => data.hasFormat format) with
  | some format => format
  | none => ""

/-- Action taken by `TextEdit::insertFromMimeData`: either insert an inline
image at the caret — the source builds the HTML
`<img src="data:MIME;base64,B64(PAYLOAD)" />` from the recorded mime type
and raw payload — or defer to `QTextEdit::insertFromMimeData`. -/
inductive PasteAction
  | insertDataUriImage (mime : String) (payload : String)
  | defaultPaste
deriving DecidableEq, Repr

/-- `TextEdit::insertFromMimeData` (itemwidget.cpp:78-89). -/
def insertFromMimeData (source : QMimeData) : PasteAction :=
  let mime := findImageFormat source
  if !mime.isEmpty then
    .insertDataUriImage mime (source.payload mime)
  else
    .defaultPaste

/-- Sample edit-surface state used to instantiate theorems with hypotheses. -/
def sampleEdit : QTextEditState :=
  { document := emptyDocument
    textCursorPos := 0
    hasSelection := true
    mouseTracking := false
    viewportCursor := .ibeam
    interactionFlags :=
      { textSelectableByMouse := true, linksAccessibleByMouse := true, otherBits := 5 } }

/-- C1: for a rich-text (`QTextEdit`) editor, `setModelData` first writes an
empty value, then writes one mapping that stores the plain text under
`text/plain` always and a `text/html` entry exactly when the document has
more than 3 distinct formats; afterwards the editor document's modified
flag is false. -/
theorem setModelData_commit (edit : QTextEditState) :
    ∃ map : List (String × String),
      (setModelData (.textEdit edit)).writes = [.setText "", .updateData map]
      ∧ map.lookup "text/plain" = some edit.document.plainText
      ∧ ((map.lookup "text/html").isSome ↔ edit.document.formatCount > 3)
      ∧ (setModelData (.textEdit edit)).editor =
          .textEdit { edit with document := { edit.document with modified := false } } := by
  by_cases h : containsRichText edit.document
  · exact ⟨[("text/plain", edit.document.plainText), ("text/html", edit.document.html)],
      by simp [setModelData, qobjectCastTextEdit, toPlainText, toHtml, h],
      by simp [List.lookup],
      by simpa [List.lookup] using (by simpa [containsRichText] using h),
      by simp [setModelData, qobjectCastTextEdit, h]⟩
  · exact ⟨[("text/plain", edit.document.plainText)],
      by simp [setModelData, qobjectCastTextEdit, toPlainText, h],
      by simp [List.lookup],
      by simpa [List.lookup] using (by simpa [containsRichText] using h),
      by simp [setModelData, qobjectCastTextEdit, h]⟩

/-- C2: loading plain text "abc" (with `hasHtml` false) into a fresh editor
via `setEditorData` and committing via `setModelData` without modification
yields a mapping whose `text/plain` entry is "abc" and which has no
`text/html` key. -/
theorem editor_roundtrip_plain (parseHtml : String → QTextDocument) (htmlRole : String) :
    ∃ map : List (String × String),
      (setModelData (setEditorData parseHtml createEditor
          { hasHtml := false, html := htmlRole, editText := "abc" })).writes =
        [.setText "", .updateData map]
      ∧ map.lookup "text/plain" = some "abc"
      ∧ map.lookup "text/html" = none :=
  ⟨[("text/plain", "abc")], rfl, rfl, rfl⟩

/-- C3: `filterMouseEvents` reports the event handled exactly when it is a
Press with the Shift modifier over a non-empty anchor, and exactly on that
path it opens exactly one URL. -/
theorem filterMouseEvents_handled_iff (anchorAt : QPoint → String)
    (cursorForPosition : QPoint → Nat) (edit : QTextEditState) (event : QEvent) :
    ((filterMouseEvents anchorAt cursorForPosition edit event).handled = true ↔
      ∃ e, event = QEvent.mouseButtonPress e ∧ canMouseInteract e = true
        ∧ (anchorAt e.pos).isEmpty = false)
    ∧ (filterMouseEvents anchorAt cursorForPosition edit event).openedUrls.length =
        (if (filterMouseEvents anchorAt cursorForPosition edit event).handled then 1 else 0) := by
  cases event with
  | enter => simp [filterMouseEvents]
  | other => simp [filterMouseEvents]
  | mouseButtonPress e =>
      by_cases hc : canMouseInteract e = true
      · by_cases hb : e.button = MouseButton.left <;>
          by_cases ha : (anchorAt e.pos).isEmpty = true <;>
            simp [filterMouseEvents, pressMovePhase, setTextCursorAt, hc, hb, ha]
      · have hc' : canMouseInteract e = false := by simpa using hc
        simp [filterMouseEvents, pressMovePhase, hc']
  | mouseButtonDblClick e =>
      by_cases hc : canMouseInteract e = true <;>
        by_cases hb : e.button = MouseButton.left <;>
          simp_all [filterMouseEvents]
  | mouseMove e =>
      by_cases hc : canMouseInteract e = true <;>
        by_cases ha : (anchorAt e.pos).isEmpty = true <;>
          simp_all [filterMouseEvents, pressMovePhase]
  | mouseButtonRelease e => simp [filterMouseEvents]

/-- C4: a Press without the interaction modifier is reported not handled,
clears both mouse-interaction flags and resets the viewport cursor to the
default shape. -/
theorem filterMouseEvents_press_unmodified (anchorAt : QPoint → String)
    (cursorForPosition : QPoint → Nat) (edit : QTextEditState) (e : QMouseEvent)
    (h : canMouseInteract e = false) :
    (filterMouseEvents anchorAt cursorForPosition edit (QEvent.mouseButtonPress e)).handled
      = false
    ∧ (filterMouseEvents anchorAt cursorForPosition edit
        (QEvent.mouseButtonPress e)).edit.interactionFlags.textSelectableByMouse = false
    ∧ (filterMouseEvents anchorAt cursorForPosition edit
        (QEvent.mouseButtonPress e)).edit.interactionFlags.linksAccessibleByMouse = false
    ∧ (filterMouseEvents anchorAt cursorForPosition edit
        (QEvent.mouseButtonPress e)).edit.viewportCursor = CursorShape.arrow := by
  simp [filterMouseEvents, pressMovePhase, applyInteractionFlags, h]

/-- Witness for C4 at a concrete unmodified left-button press. -/
theorem filterMouseEvents_press_unmodified_witness :
    (filterMouseEvents (fun _ => "") (fun _ => 0) sampleEdit
      (QEvent.mouseButtonPress ⟨0, .left, ⟨0, 0⟩⟩)).handled = false
    ∧ (filterMouseEvents (fun _ => "") (fun _ => 0) sampleEdit
        (QEvent.mouseButtonPress ⟨0, .left, ⟨0, 0⟩⟩)).edit.interactionFlags.textSelectableByMouse
        = false
    ∧ (filterMouseEvents (fun _ => "") (fun _ => 0) sampleEdit
        (QEvent.mouseButtonPress ⟨0, .left, ⟨0, 0⟩⟩)).edit.interactionFlags.linksAccessibleByMouse
        = false
    ∧ (filterMouseEvents (fun _ => "") (fun _ => 0) sampleEdit
        (QEvent.mouseButtonPress ⟨0, .left, ⟨0, 0⟩⟩)).edit.viewportCursor = CursorShape.arrow :=
  filterMouseEvents_press_unmodified (fun _ => "") (fun _ => 0) sampleEdit
    ⟨0, .left, ⟨0, 0⟩⟩ (by decide)

/-- C5: a Release triggers exactly one copy action when the modifier is held
and a selection exists, and none otherwise; in every case it clears both
mouse-interaction flags and is reported not handled. -/
theorem filterMouseEvents_release (anchorAt : QPoint → String)
    (cursorForPosition : QPoint → Nat) (edit : QTextEditState) (e : QMouseEvent) :
    (filterMouseEvents anchorAt cursorForPosition edit
        (QEvent.mouseButtonRelease e)).copyCount =
      (if canMouseInteract e && edit.hasSelection then 1 else 0)
    ∧ (filterMouseEvents anchorAt cursorForPosition edit
        (QEvent.mouseButtonRelease e)).edit.interactionFlags.textSelectableByMouse = false
    ∧ (filterMouseEvents anchorAt cursorForPosition edit
        (QEvent.mouseButtonRelease e)).edit.interactionFlags.linksAccessibleByMouse = false
    ∧ (filterMouseEvents anchorAt cursorForPosition edit
        (QEvent.mouseButtonRelease e)).handled = false := by
  simp [filterMouseEvents, applyInteractionFlags]

/-- C6: the image representation embedded on paste/drop is the first offered
format in the fixed priority order SVG, PNG, BMP, JPEG, GIF; a payload
offering none of the five defers to default paste handling. -/
theorem insertFromMimeData_priority (d : QMimeData) :
    (d.hasFormat "image/svg+xml" = true →
        insertFromMimeData d =
          .insertDataUriImage "image/svg+xml" (d.payload "image/svg+xml"))
    ∧ (d.hasFormat "image/svg+xml" = false → d.hasFormat "image/png" = true →
        insertFromMimeData d = .insertDataUriImage "image/png" (d.payload "image/png"))
    ∧ (d.hasFormat "image/svg+xml" = false → d.hasFormat "image/png" = false →
        d.hasFormat "image/bmp" = true →
        insertFromMimeData d = .insertDataUriImage "image/bmp" (d.payload "image/bmp"))
    ∧ (d.hasFormat "image/svg+xml" = false → d.hasFormat "image/png" = false →
        d.hasFormat "image/bmp" = false → d.hasFormat "image/jpeg" = true →
        insertFromMimeData d = .insertDataUriImage "image/jpeg" (d.payload "image/jpeg"))
    ∧ (d.hasFormat "image/svg+xml" = false → d.hasFormat "image/png" = false →
        d.hasFormat "image/bmp" = false → d.hasFormat "image/jpeg" = false →
        d.hasFormat "image/gif" = true →
        insertFromMimeData d = .insertDataUriImage "image/gif" (d.payload "image/gif"))
    ∧ (d.hasFormat "image/svg+xml" = false → d.hasFormat "image/png" = false →
        d.hasFormat "image/bmp" = false → d.hasFormat "image/jpeg" = false →
        d.hasFormat "image/gif" = false →
        insertFromMimeData d = .defaultPaste) := by
  refine ⟨?_, ?_, ?_, ?_, ?_, ?_⟩ <;> intros <;>
    simp_all [insertFromMimeData, findImageFormat, imageFormats, List.find?] <;> decide

/-- Witness for C6: a payload offering both PNG and JPEG embeds the PNG
payload. -/
theorem insertFromMimeData_priority_witness :
    insertFromMimeData ⟨[("image/png", "PNGDATA"), ("image/jpeg", "JPEGDATA")], true⟩ =
      PasteAction.insertDataUriImage "image/png" "PNGDATA" := by
  have h := (insertFromMimeData_priority
    ⟨[("image/png", "PNGDATA"), ("image/jpeg", "JPEGDATA")], true⟩).2.1
    (by decide) (by decide)
  rw [h]; decide

/-- C7: `updateSize` falls back to the size hint when both height queries are
non-positive, fixes the size to (idealWidth, idealHeight) when the two
heights agree, and to (maximumSize.width, maximumHeight) otherwise. -/
theorem updateSize_policy (heightForWidth : Int → Int) (maximumSize : QSize)
    (idealWidth : Int) :
    ((heightForWidth idealWidth ≤ 0 ∧ heightForWidth maximumSize.width ≤ 0) →
        updateSize heightForWidth maximumSize idealWidth =
          { newMaximumSize := maximumSize, action := .resizeToSizeHint })
    ∧ (¬(heightForWidth idealWidth ≤ 0 ∧ heightForWidth maximumSize.width ≤ 0) →
        heightForWidth idealWidth = heightForWidth maximumSize.width →
        updateSize heightForWidth maximumSize idealWidth =
          { newMaximumSize := maximumSize,
            action := .setFixedSize idealWidth (heightForWidth idealWidth) })
    ∧ (¬(heightForWidth idealWidth ≤ 0 ∧ heightForWidth maximumSize.width ≤ 0) →
        heightForWidth idealWidth ≠ heightForWidth maximumSize.width →
        updateSize heightForWidth maximumSize idealWidth =
          { newMaximumSize := maximumSize,
            action := .setFixedSize maximumSize.width
              (heightForWidth maximumSize.width) }) := by
  refine ⟨?_, ?_, ?_⟩
  · intro h1
    simp [updateSize, h1]
  · intro h1 h2
    have hb : ¬ heightForWidth maximumSize.width ≤ 0 := by
      intro hle
      exact h1 ⟨by rw [h2]; exact hle, hle⟩
    simp [updateSize, h2, hb]
  · intro h1 h2
    simp [updateSize, h1, h2]

/-- Witness for C7 at concrete differing heights: fixes to the maximum width
and its height. -/
theorem updateSize_policy_witness :
    updateSize (fun w => w) ⟨10, 10⟩ 5 =
      { newMaximumSize := ⟨10, 10⟩, action := .setFixedSize 10 10 } :=
  (updateSize_policy (fun w => w) ⟨10, 10⟩ 5).2.2 (by decide) (by decide)

/-- C8: applying `setHighlight` twice with the same pattern, font and palette
triggers the `highlight` re-render effect at most once; the second call is a
no-op. -/
theorem setHighlight_idempotent (m_re re : QRegExp) (font : QFont) (palette : QPalette) :
    setHighlight (setHighlight m_re re font palette).1 re font palette =
      ((setHighlight m_re re font palette).1, [])
    ∧ ((setHighlight m_re re font palette).2 ++
        (setHighlight (setHighlight m_re re font palette).1 re font palette).2).length ≤ 1 := by
  by_cases h : m_re = re <;> simp [setHighlight, h]

/-- C9: a widget that does not cast to `QTextEdit` (null included) makes
`setEditorData` and `setModelData` complete no-ops and `hasChanges` false;
`hasChanges` is true exactly on a `QTextEdit` whose document is modified. -/
theorem nonTextEdit_editor_noop (editor : WidgetPtr) :
    (qobjectCastTextEdit editor = none →
        (∀ parseHtml index, setEditorData parseHtml editor index = editor)
        ∧ setModelData editor = { writes := [], editor := editor }
        ∧ hasChanges editor = false)
    ∧ (hasChanges editor = true ↔
        ∃ edit, editor = WidgetPtr.textEdit edit ∧ edit.document.modified = true) := by
  cases editor <;>
    simp [qobjectCastTextEdit, setEditorData, setModelData, hasChanges]

/-- Witness for C9 at the null editor pointer. -/
theorem nonTextEdit_editor_noop_witness :
    setModelData WidgetPtr.null = { writes := [], editor := WidgetPtr.null }
    ∧ hasChanges WidgetPtr.null = false := by
  have h := (nonTextEdit_editor_noop WidgetPtr.null).1 rfl
  exact ⟨h.2.1, h.2.2⟩

/-- C10: `setHighlight` compares only the stored pattern: when the new
pattern equals the stored one, the call is a complete no-op (state unchanged,
no `highlight` effect) even for a different font or palette. -/
theorem setHighlight_compares_only_pattern (m_re re : QRegExp) (font : QFont)
    (palette : QPalette) (h : m_re = re) :
    setHighlight m_re re font palette = (m_re, []) := by
  simp [setHighlight, h]

/-- Witness for C10: same pattern, different font and palette, still a no-op. -/
theorem setHighlight_compares_only_pattern_witness :
    setHighlight ⟨"abc", true, false⟩ ⟨"abc", true, false⟩ ⟨7⟩ ⟨8⟩ =
      (⟨"abc", true, false⟩, []) :=
  setHighlight_compares_only_pattern ⟨"abc", true, false⟩ ⟨"abc", true, false⟩ ⟨7⟩ ⟨8⟩ rfl

end CopyQ
